import Mathlib

/-
Verification of the commit-history rewrite engine of auto-commit-rs
(src/git.rs).  The development shallowly embeds:

  * the behaviour of the two generated helper shell scripts
    (the sequence-editor script and the message-editor script), with a
    text line modelled as a `List Char`;
  * the control flow of `rewrite_commit_message`,
    `reword_non_head_commit` and their helpers, with the external world
    (git subprocess answers, filesystem call outcomes) modelled as an
    oracle record `GitWorld`, and the externally visible actions of a
    call collected in an effect trace `List GitEffect`.
-/

namespace AutoCommit

/-! ## Sequence-editor script semantics

The script written by `write_sequence_editor_script` is

  #!/bin/sh
  set -e
  todo="$1"
  tmp="${todo}.cgen"
  first=1
  while IFS= read -r line; do
    if [ "$first" -eq 1 ] && printf '%s\n' "$line" | grep -q '^pick '; then
      printf '%s\n' "$line" | sed 's/^pick /reword /' >> "$tmp"
      first=0
    else
      printf '%s\n' "$line" >> "$tmp"
    fi
  done < "$todo"
  mv "$tmp" "$todo"

A step list is a `List (List Char)` (one entry per text line of the
todo file).  The side file `"$tmp"` starts out absent (`none`): the
`>>` redirection creates it on first use, and the final `mv` fails —
which under `set -e` makes the script exit non-zero — when the loop
never ran, i.e. when the input had no lines. -/

/-- Model of `grep -q \x27^pick \x27` applied to one line. -/
def startsWithPick (l : List Char) : Bool :=
  List.isPrefixOf "pick ".data l

/-- Model of `sed \x27s/^pick /reword /\x27` applied to one line. -/
def sedPickToReword (l : List Char) : List Char :=
  if List.isPrefixOf "pick ".data l then "reword ".data ++ l.drop 5 else l

/-- Model of one `>>` append to the side file: the file is created if
absent, and the line is appended. -/
def tmpAppend (tmp : Option (List (List Char))) (l : List Char) :
    Option (List (List Char)) :=
  some (tmp.getD [] ++ [l])

/-- Model of the script loop: `first` is the `first` flag, the second
argument the remaining input lines, the third the side-file state. -/
def seqLoop : Bool → List (List Char) → Option (List (List Char)) →
    Option (List (List Char))
  | _, [], tmp => tmp
  | first, l :: ls, tmp =>
    if first && startsWithPick l then
      seqLoop false ls (tmpAppend tmp (sedPickToReword l))
    else
      seqLoop first ls (tmpAppend tmp l)

/-- Model of a whole run of the sequence-editor script on a todo file:
run the loop starting with `first=1` and an absent side file, then
`mv "$tmp" "$todo"`, which fails (script exits non-zero, the error
case) when the side file was never created. -/
def seqEditorRun (todo : List (List Char)) :
    Except Unit (List (List Char)) :=
  match seqLoop true todo none with
  | none => .error ()
  | some out => .ok out

/-- Accumulator-free description of the rewrite the loop performs,
used to state and prove properties of `seqEditorRun`. -/
def transformSteps : List (List Char) → List (List Char)
  | [] => []
  | l :: ls =>
    if startsWithPick l then sedPickToReword l :: ls
    else l :: transformSteps ls

/-! ## Message-editor script semantics

The script written by `write_message_editor_script` is

  #!/bin/sh
  set -e
  msg_file="$1"
  printf '%s\n' "$CGEN_NEW_MESSAGE" > "$msg_file"

It is invoked on a message file whose current contents are a
placeholder; the single truncating `>` write replaces the whole file
with the value of the environment variable followed by one newline
(`printf \x27%s\n\x27` copies its argument verbatim and appends `\n`). -/

/-- Model of `printf \x27%s\n\x27 VALUE`: the value followed by exactly one
newline character. -/
def printfLine (arg : List Char) : List Char :=
  arg ++ [Char.ofNat 10]

/-- Model of a run of the message-editor script: `env` maps environment
variable names to values, the second argument is what the message file
held when the script was invoked (deliberately ignored by the script).
The resulting file contents come from the truncating write on the last
script line. -/
def msgEditorRun (env : String → List Char) (_priorContents : List Char) :
    List Char :=
  printfLine (env "CGEN_NEW_MESSAGE")

/-! ## The rewrite engine of git.rs

External observations of one `rewrite_commit_message` call are modelled
by an oracle `GitWorld` (what the git subprocesses answer, whether each
filesystem call succeeds) and a trace of emitted effects.  Read-only
subprocess queries whose outcome steers control flow (`rev-list
--parents`, `merge-base --is-ancestor`) are recorded as query effects;
mutations (amend, rebase) and helper-script filesystem operations are
recorded as the remaining effects.  `rev-parse` resolution is modelled
by `GitWorld.resolve`: `none` means `git rev-parse --verify
REF^{commit}` exits non-zero. -/

/-- Oracle for the external world one call observes. -/
structure GitWorld where
  resolve : String → Option String
  parentCount : String → Nat
  isAncestorOfHead : String → Bool
  writeOk : String → Bool
  chmodOk : String → Bool
  amendSpawnOk : Bool
  amendExitOk : Bool
  rebaseSpawnOk : Bool
  rebaseExitOk : Bool
  pid : Nat
  tempDir : String

/-- Error cases, one per `bail!`/`?` site reached by the rewrite flow. -/
inductive RewriteError where
  | unknownCommit (ref : String)
  | resolveFailed (ref : String)
  | amendSpawnFailed
  | toolExecutionFailed
  | unsupportedMergeRewrite
  | notOnCurrentBranch
  | resourceError (path : String)
  | rebaseSpawnFailed
  | rewriteConflict
deriving DecidableEq

/-- The data of the `git rebase -i` invocation built in
`reword_non_head_commit`: argument vector plus the three environment
variables set on the child process. -/
structure RebaseCmd where
  args : List String
  gitSequenceEditor : String
  gitEditor : String
  cgenNewMessage : String
deriving DecidableEq

/-- Externally visible actions of one call, in order. -/
inductive GitEffect where
  | queryParents (ref : String)
  | queryAncestry (ref : String)
  | amend (message : String)
  | writeFile (path : String) (contents : String)
  | chmod (path : String)
  | rebase (cmd : RebaseCmd)
  | removeFile (path : String)
deriving DecidableEq

/-- True for effects that mutate the repository or the filesystem;
false for the read-only queries. -/
def GitEffect.isMutation : GitEffect → Bool
  | .queryParents _ => false
  | .queryAncestry _ => false
  | _ => true

/-- Whether a file exists after the trace ran, for a file that did not
exist before the call (helper-script names are fresh per process), on
the assumption that attempted removals succeed. -/
def fileExistsAfter (tr : List GitEffect) (path : String) : Bool :=
  tr.foldl (fun st e =>
    match e with
    | .writeFile p _ => if p == path then true else st
    | .removeFile p => if p == path then false else st
    | _ => st) false

/-- Path and contents of each helper-script write in a trace. -/
def scriptWritesOf (tr : List GitEffect) : List (String × String) :=
  tr.filterMap fun e =>
    match e with
    | .writeFile p b => some (p, b)
    | _ => none

/-- The rebase invocations in a trace. -/
def rebaseCmdsOf (tr : List GitEffect) : List RebaseCmd :=
  tr.filterMap fun e =>
    match e with
    | .rebase c => some c
    | _ => none

/-- Body of the sequence-editor helper script: the raw string constant
in `write_sequence_editor_script` (src/git.rs). -/
def sequenceEditorScript : String :=
  "#!/bin/sh\nset -e\ntodo=\"$1\"\ntmp=\"${todo}.cgen\"\nfirst=1\n\nwhile IFS= read -r line; do\n  if [ \"$first\" -eq 1 ] && printf \x27%s\\n\x27 \"$line\" | grep -q \x27^pick \x27; then\n    printf \x27%s\\n\x27 \"$line\" | sed \x27s/^pick /reword /\x27 >> \"$tmp\"\n    first=0\n  else\n    printf \x27%s\\n\x27 \"$line\" >> \"$tmp\"\n  fi\ndone < \"$todo\"\n\nmv \"$tmp\" \"$todo\"\n"

/-- Body of the message-editor helper script: the raw string constant
in `write_message_editor_script` (src/git.rs). -/
def messageEditorScript : String :=
  "#!/bin/sh\nset -e\nmsg_file=\"$1\"\nprintf \x27%s\\n\x27 \"$CGEN_NEW_MESSAGE\" > \"$msg_file\"\n"

/-- Path `temp_dir().join(format!("cgen-seq-editor-{}.sh", process::id()))`. -/
def seqEditorPath (w : GitWorld) : String :=
  w.tempDir ++ "/cgen-seq-editor-" ++ toString w.pid ++ ".sh"

/-- Path `temp_dir().join(format!("cgen-msg-editor-{}.sh", process::id()))`. -/
def msgEditorPath (w : GitWorld) : String :=
  w.tempDir ++ "/cgen-msg-editor-" ++ toString w.pid ++ ".sh"

/-- Embedding of `script_command`: `path.to_string_lossy().replace(\x27\\\x27, "/")`. -/
def script_command (path : String) : String :=
  String.mk (path.data.map fun ch => if ch == Char.ofNat 92 then Char.ofNat 47 else ch)

/-- Embedding of `write_sequence_editor_script`: `fs::write` of the
constant body, then `make_executable` (metadata + `set_permissions`
0o700, whose failure `GitWorld.chmodOk` models); each `?` propagates an
error.  A failed `fs::write` creates no file; a failed
`make_executable` leaves the written file in place. -/
def write_sequence_editor_script (w : GitWorld) (path : String) :
    Except RewriteError Unit × List GitEffect :=
  if w.writeOk path then
    if w.chmodOk path then
      (.ok (), [.writeFile path sequenceEditorScript, .chmod path])
    else
      (.error (.resourceError path), [.writeFile path sequenceEditorScript])
  else
    (.error (.resourceError path), [])

/-- Embedding of `write_message_editor_script`, same shape as
`write_sequence_editor_script` with the other constant body. -/
def write_message_editor_script (w : GitWorld) (path : String) :
    Except RewriteError Unit × List GitEffect :=
  if w.writeOk path then
    if w.chmodOk path then
      (.ok (), [.writeFile path messageEditorScript, .chmod path])
    else
      (.error (.resourceError path), [.writeFile path messageEditorScript])
  else
    (.error (.resourceError path), [])

/-- Embedding of `ensure_commit_exists`: `git rev-parse --verify
REF^{commit}` status check. -/
def ensure_commit_exists (w : GitWorld) (c : String) :
    Except RewriteError Unit :=
  match w.resolve c with
  | some _ => .ok ()
  | none => .error (.unknownCommit c)

/-- Embedding of `resolve_commit`: `git rev-parse --verify REF^{commit}`
capturing the resolved hash. -/
def resolve_commit (w : GitWorld) (c : String) :
    Except RewriteError String :=
  match w.resolve c with
  | some id => .ok id
  | none => .error (.resolveFailed c)

/-- Embedding of `is_head_commit`: `ensure_commit_exists` then equality
of `resolve_commit("HEAD")` and `resolve_commit(commit)`. -/
def is_head_commit (w : GitWorld) (c : String) :
    Except RewriteError Bool :=
  match ensure_commit_exists w c with
  | .error e => .error e
  | .ok () =>
    match resolve_commit w "HEAD" with
    | .error e => .error e
    | .ok h =>
      match resolve_commit w c with
      | .error e => .error e
      | .ok t => .ok (h == t)

/-- Embedding of `commit_is_merge`: `ensure_commit_exists`, then the
parent count from `git rev-list --parents -n 1 REF` compared with 1. -/
def commit_is_merge (w : GitWorld) (c : String) :
    Except RewriteError Bool × List GitEffect :=
  match ensure_commit_exists w c with
  | .error e => (.error e, [])
  | .ok () => (.ok (decide (w.parentCount c > 1)), [.queryParents c])

/-- Embedding of `ensure_ancestor_of_head`: `git merge-base
--is-ancestor REF HEAD` status check; any non-success status becomes
the not-on-current-branch error. -/
def ensure_ancestor_of_head (w : GitWorld) (c : String) :
    Except RewriteError Unit × List GitEffect :=
  if w.isAncestorOfHead c then
    (.ok (), [.queryAncestry c])
  else
    (.error .notOnCurrentBranch, [.queryAncestry c])

/-- Embedding of `reword_non_head_commit`: write the two helper scripts
(each `?` aborts the call), build the `git rebase -i {target}^` command
with the `GIT_SEQUENCE_EDITOR`, `GIT_EDITOR` and `CGEN_NEW_MESSAGE`
environment variables, run it (`cmd.status()?`, so a spawn failure
aborts before the cleanup lines), then remove both script files with
ignored results, and finally turn a non-zero exit into an error. -/
def reword_non_head_commit (w : GitWorld) (target message : String) :
    Except RewriteError Unit × List GitEffect :=
  let parent := target ++ "^"
  let sequence_editor := seqEditorPath w
  let message_editor := msgEditorPath w
  match write_sequence_editor_script w sequence_editor with
  | (.error e, tr) => (.error e, tr)
  | (.ok (), tr1) =>
    match write_message_editor_script w message_editor with
    | (.error e, tr2) => (.error e, tr1 ++ tr2)
    | (.ok (), tr2) =>
      let cmd : RebaseCmd :=
        { args := ["rebase", "-i", parent]
          gitSequenceEditor := script_command sequence_editor
          gitEditor := script_command message_editor
          cgenNewMessage := message }
      if w.rebaseSpawnOk then
        let tr := tr1 ++ tr2 ++
          [.rebase cmd, .removeFile sequence_editor,
           .removeFile message_editor]
        if w.rebaseExitOk then (.ok (), tr)
        else (.error .rewriteConflict, tr)
      else
        (.error .rebaseSpawnFailed, tr1 ++ tr2)

/-- Embedding of `rewrite_commit_message`: `ensure_commit_exists`, the
`is_head_commit` test with the inline amend path on success, then the
merge check, the ancestry check, and finally
`reword_non_head_commit`. -/
def rewrite_commit_message (w : GitWorld) (target message : String) :
    Except RewriteError Unit × List GitEffect :=
  match ensure_commit_exists w target with
  | .error e => (.error e, [])
  | .ok () =>
    match is_head_commit w target with
    | .error e => (.error e, [])
    | .ok true =>
      if w.amendSpawnOk then
        if w.amendExitOk then (.ok (), [.amend message])
        else (.error .toolExecutionFailed, [.amend message])
      else
        (.error .amendSpawnFailed, [])
    | .ok false =>
      match commit_is_merge w target with
      | (.error e, tr) => (.error e, tr)
      | (.ok true, tr) => (.error .unsupportedMergeRewrite, tr)
      | (.ok false, tr) =>
        match ensure_ancestor_of_head w target with
        | (.error e, tr2) => (.error e, tr ++ tr2)
        | (.ok (), tr2) =>
          let r := reword_non_head_commit w target message
          (r.fst, tr ++ tr2 ++ r.snd)

/-! ## Concrete worlds and inputs used by witnesses and counterexamples -/

/-- Repository oracle with a normal tip `headhash`, a rewordable
ancestor `c2`, a non-tip merge commit `m` and a diverged commit `d`;
every external call succeeds. -/
def wBase : GitWorld where
  resolve := fun r =>
    if r == "HEAD" || r == "headhash" then some "headhash"
    else if r == "c2" then some "c2hash"
    else if r == "m" then some "mergehash"
    else if r == "d" then some "dhash"
    else none
  parentCount := fun r => if r == "m" then 2 else 1
  isAncestorOfHead := fun r =>
    r == "HEAD" || r == "headhash" || r == "c2"
  writeOk := fun _ => true
  chmodOk := fun _ => true
  amendSpawnOk := true
  amendExitOk := true
  rebaseSpawnOk := true
  rebaseExitOk := true
  pid := 7
  tempDir := "/tmp"

/-- World whose tip is the merge commit `m` itself. -/
def wMergeTip : GitWorld :=
  { wBase with
    resolve := fun r =>
      if r == "HEAD" || r == "m" then some "mergehash" else none }

/-- World where spawning the rebase subprocess fails. -/
def wSpawnFail : GitWorld :=
  { wBase with rebaseSpawnOk := false }

/-- World where creating the message-editor helper script fails. -/
def wWriteFail : GitWorld :=
  { wBase with writeOk := fun p => !(p == "/tmp/cgen-msg-editor-7.sh") }

/-- Step list with one non-pick line followed by two pick lines. -/
def todoEx : List (List Char) :=
  ["# comment".data, "pick b2".data, "pick c3".data]

/-! ## Lemmas about the sequence-editor transform -/

theorem seqLoop_some (ls : List (List Char)) :
    ∀ (first : Bool) (acc : List (List Char)),
      seqLoop first ls (some acc) =
        some (acc ++ if first then transformSteps ls else ls) := by
  induction ls with
  | nil => intro first acc; cases first <;> simp [seqLoop, transformSteps]
  | cons l ls ih =>
    intro first acc
    cases first with
    | false =>
      simp [seqLoop, tmpAppend, ih]
    | true =>
      by_cases hp : startsWithPick l
      · simp [seqLoop, hp, tmpAppend, ih, transformSteps]
      · simp [seqLoop, hp, tmpAppend, ih, transformSteps]

theorem seqEditorRun_nil : seqEditorRun [] = .error () := rfl

theorem startsWithPick_shape {l : List Char} (h : startsWithPick l = true) :
    ∃ t, l = "pick ".data ++ t := by
  unfold startsWithPick at h
  simp only [List.isPrefixOf_iff_prefix] at h
  obtain ⟨t, ht⟩ := h
  exact ⟨t, ht.symm⟩

theorem sedPickToReword_of_pick {t : List Char} :
    sedPickToReword ("pick ".data ++ t) = "reword ".data ++ t := by
  unfold sedPickToReword
  rw [if_pos]
  · rw [List.drop_left' (by decide)]
  · simp

theorem sedPickToReword_ne {l : List Char} (h : startsWithPick l = true) :
    sedPickToReword l ≠ l := by
  obtain ⟨t, rfl⟩ := startsWithPick_shape h
  rw [sedPickToReword_of_pick]
  intro heq
  have hlen := congrArg List.length heq
  simp at hlen
  omega

theorem transformSteps_length (ls : List (List Char)) :
    (transformSteps ls).length = ls.length := by
  induction ls with
  | nil => rfl
  | cons l ls ih =>
    by_cases hp : startsWithPick l <;> simp [transformSteps, hp, ih]

theorem transformSteps_of_no_pick (ls : List (List Char))
    (h : ∀ l ∈ ls, startsWithPick l = false) : transformSteps ls = ls := by
  induction ls with
  | nil => rfl
  | cons l ls ih =>
    have hl : startsWithPick l = false := h l (by simp)
    simp [transformSteps, hl]
    exact ih fun x hx => h x (by simp [hx])

theorem transformSteps_first_pick (ls : List (List Char)) :
    ∀ (i : Nat) (l : List Char), ls[i]? = some l →
      startsWithPick l = true →
      (∀ j l', j < i → ls[j]? = some l' → startsWithPick l' = false) →
      (transformSteps ls)[i]? = some (sedPickToReword l) ∧
        ∀ j, j ≠ i → (transformSteps ls)[j]? = ls[j]? := by
  induction ls with
  | nil => intro i l h; simp at h
  | cons l0 ls ih =>
    intro i l h hp hfirst
    cases i with
    | zero =>
      simp only [List.getElem?_cons_zero, Option.some.injEq] at h
      subst h
      refine ⟨by simp [transformSteps, hp], ?_⟩
      intro j hj
      cases j with
      | zero => exact absurd rfl hj
      | succ j => simp [transformSteps, hp]
    | succ i =>
      have h0 : startsWithPick l0 = false :=
        hfirst 0 l0 (Nat.succ_pos i) (by simp)
      simp only [List.getElem?_cons_succ] at h
      have ihr := ih i l h hp
        (fun j l' hj hl' => hfirst (j + 1) l' (by omega) (by simpa using hl'))
      refine ⟨by simp [transformSteps, h0, ihr.1], ?_⟩
      intro j hj
      cases j with
      | zero => simp [transformSteps, h0]
      | succ j =>
        have := ihr.2 j (by omega)
        simp [transformSteps, h0, this]

theorem seqEditorRun_cons (l : List Char) (ls : List (List Char)) :
    seqEditorRun (l :: ls) = .ok (transformSteps (l :: ls)) := by
  by_cases hp : startsWithPick l
  · simp [seqEditorRun, seqLoop, hp, tmpAppend, seqLoop_some,
      transformSteps]
  · simp [seqEditorRun, seqLoop, hp, tmpAppend, seqLoop_some,
      transformSteps]

/-! ## The claims -/

/-- C3: for every input step list containing a line that begins with
"pick ", the sequence-editor transform succeeds and changes exactly one
line — the first such line, whose leading "pick " becomes "reword " —
while every other line of the output is byte-for-byte identical to the
corresponding input line, with order and number of lines preserved. -/
theorem C3_step_editor_rewrites_first_pick (todo : List (List Char))
    (i : Nat) (l : List Char) (hl : todo[i]? = some l)
    (hp : startsWithPick l = true)
    (hfirst : ∀ j l', j < i → todo[j]? = some l' →
      startsWithPick l' = false) :
    ∃ out, seqEditorRun todo = .ok out ∧
      out.length = todo.length ∧
      out[i]? = some ("reword ".data ++ l.drop 5) ∧
      "reword ".data ++ l.drop 5 ≠ l ∧
      ∀ j, j ≠ i → out[j]? = todo[j]? := by
  have hne := sedPickToReword_ne hp
  obtain ⟨t, rfl⟩ := startsWithPick_shape hp
  have hdrop : ("pick ".data ++ t).drop 5 = t := List.drop_left' (by decide)
  have hsed := sedPickToReword_of_pick (t := t)
  cases todo with
  | nil => simp at hl
  | cons l0 ls =>
    have hmain := transformSteps_first_pick (l0 :: ls) i _ hl hp hfirst
    refine ⟨transformSteps (l0 :: ls), seqEditorRun_cons l0 ls,
      transformSteps_length _, ?_, ?_, hmain.2⟩
    · rw [hdrop, ← hsed]; exact hmain.1
    · rw [hdrop, ← hsed]; exact hne

/-- Witness for C3: the concrete step list `todoEx`, whose first
pick-line is at index 1. -/
theorem C3_witness :
    ∃ out, seqEditorRun todoEx = .ok out ∧
      out.length = todoEx.length ∧
      out[1]? = some ("reword ".data ++ ("pick b2".data).drop 5) ∧
      "reword ".data ++ ("pick b2".data).drop 5 ≠ "pick b2".data ∧
      ∀ j, j ≠ 1 → out[j]? = todoEx[j]? :=
  C3_step_editor_rewrites_first_pick todoEx 1 "pick b2".data (by decide)
    (by decide)
    (fun j l' hj hl' => by
      have hj0 : j = 0 := by omega
      subst hj0
      have hl'' : l' = "# comment".data := by
        simpa [todoEx] using hl'.symm
      subst hl''
      decide)

/-- C9 counterexample: on the empty step list the sequence-editor
script does not complete successfully — the side file is never created,
so the final `mv` fails and the script exits non-zero. -/
theorem C9_counterexample : seqEditorRun [] = .error () := rfl

/-- C9 (amended): for every nonempty input step list in which no line
begins with "pick ", the sequence-editor transform completes
successfully and leaves the list entirely unchanged; on the empty list
it fails instead, because the side file it moves over the original is
never created. -/
theorem C9_no_pick_leaves_list_unchanged (todo : List (List Char))
    (hne : todo ≠ []) (h : ∀ l ∈ todo, startsWithPick l = false) :
    seqEditorRun todo = .ok todo := by
  cases todo with
  | nil => exact absurd rfl hne
  | cons l0 ls =>
    rw [seqEditorRun_cons, transformSteps_of_no_pick _ h]

/-- Witness for C9 on a one-line list without a pick line. -/
theorem C9_witness :
    seqEditorRun ["# comment".data] = .ok ["# comment".data] :=
  C9_no_pick_leaves_list_unchanged _ (by decide) (by decide)

/-- C10: the message-editor helper replaces the whole contents of the
message file with exactly the supplied message (the value of
CGEN_NEW_MESSAGE, empty allowed) followed by a single trailing newline,
and its output does not depend on the placeholder contents it was
invoked with. -/
theorem C10_message_editor_replaces_contents (env : String → List Char)
    (p₁ p₂ : List Char) :
    msgEditorRun env p₁ = env "CGEN_NEW_MESSAGE" ++ [Char.ofNat 10] ∧
    msgEditorRun env p₁ = msgEditorRun env p₂ :=
  ⟨rfl, rfl⟩

/-- C7: the is-this-the-tip test answers true exactly when the target
ref resolves to the same identity as HEAD, and it is a function of the
resolved identity alone: any two refs resolving to the same identity
classify identically, whatever their text. -/
theorem C7_tip_test_compares_identities :
    (∀ (w : GitWorld) (r : String),
        is_head_commit w r = .ok true ↔
          ∃ i, w.resolve r = some i ∧ w.resolve "HEAD" = some i) ∧
    (∀ (w : GitWorld) (r₁ r₂ i : String),
        w.resolve r₁ = some i → w.resolve r₂ = some i →
        is_head_commit w r₁ = is_head_commit w r₂) := by
  constructor
  · intro w r
    unfold is_head_commit ensure_commit_exists resolve_commit
    cases hr : w.resolve r with
    | none => simp
    | some tv =>
      cases hh : w.resolve "HEAD" with
      | none => simp
      | some hv =>
        show Except.ok (hv == tv) = Except.ok true ↔ _
        simp [beq_iff_eq]
  · intro w r₁ r₂ i h1 h2
    unfold is_head_commit ensure_commit_exists resolve_commit
    rw [h1, h2]

/-- Witness for C7: in `wBase` the refs "headhash" and "HEAD" resolve
to the same identity and classify identically. -/
theorem C7_witness :
    is_head_commit wBase "headhash" = is_head_commit wBase "HEAD" :=
  C7_tip_test_compares_identities.2 wBase "headhash" "HEAD" "headhash"
    rfl rfl

/-- C6: when the target resolves to the same identity as HEAD, the call
takes the in-place amend path and returns with exactly the amend
subprocess outcome: no parent-count query, no ancestry query, no
helper-script write and no rebase ever occur in that call. -/
theorem C6_tip_amend_short_circuit (w : GitWorld) (t m i : String)
    (ht : w.resolve t = some i) (hh : w.resolve "HEAD" = some i) :
    rewrite_commit_message w t m =
      (if w.amendSpawnOk then
         if w.amendExitOk then (.ok (), [.amend m])
         else (.error .toolExecutionFailed, [.amend m])
       else (.error .amendSpawnFailed, [])) ∧
    (∀ r, GitEffect.queryParents r ∉ (rewrite_commit_message w t m).snd) ∧
    (∀ r, GitEffect.queryAncestry r ∉ (rewrite_commit_message w t m).snd) ∧
    (∀ c, GitEffect.rebase c ∉ (rewrite_commit_message w t m).snd) ∧
    (∀ p b, GitEffect.writeFile p b ∉ (rewrite_commit_message w t m).snd) := by
  have h1 : rewrite_commit_message w t m =
      (if w.amendSpawnOk then
         if w.amendExitOk then (.ok (), [.amend m])
         else (.error .toolExecutionFailed, [.amend m])
       else (.error .amendSpawnFailed, [])) := by
    unfold rewrite_commit_message is_head_commit ensure_commit_exists
      resolve_commit
    rw [ht, hh]
    simp
  refine ⟨h1, ?_, ?_, ?_, ?_⟩ <;> rw [h1] <;>
    cases hs : w.amendSpawnOk <;> cases he : w.amendExitOk <;> simp

/-- Witness for C6: the tip ref "headhash" of `wBase`. -/
theorem C6_witness :
    rewrite_commit_message wBase "headhash" "x" =
      (if wBase.amendSpawnOk then
         if wBase.amendExitOk then (.ok (), [.amend "x"])
         else (.error .toolExecutionFailed, [.amend "x"])
       else (.error .amendSpawnFailed, [])) ∧
    (∀ r, GitEffect.queryParents r ∉
      (rewrite_commit_message wBase "headhash" "x").snd) ∧
    (∀ r, GitEffect.queryAncestry r ∉
      (rewrite_commit_message wBase "headhash" "x").snd) ∧
    (∀ c, GitEffect.rebase c ∉
      (rewrite_commit_message wBase "headhash" "x").snd) ∧
    (∀ p b, GitEffect.writeFile p b ∉
      (rewrite_commit_message wBase "headhash" "x").snd) :=
  C6_tip_amend_short_circuit wBase "headhash" "x" "headhash" rfl rfl

/-- C2 counterexample: in `wMergeTip` the target "m" is a merge commit
(two parents) and also the current tip; the call amends it and succeeds
instead of returning the unsupported-merge error with no mutation. -/
theorem C2_counterexample :
    wMergeTip.parentCount "m" = 2 ∧
    rewrite_commit_message wMergeTip "m" "x" = (.ok (), [.amend "x"]) :=
  ⟨rfl, rfl⟩

/-- C2 (amended): for every target that is not the current tip and has
more than one parent, the call returns the unsupported-merge error and
performs no mutation — the only effect is the read-only parent-count
query.  A merge commit that is the current tip is instead amended in
place (see the counterexample). -/
theorem C2_nontip_merge_rejected (w : GitWorld) (t m i h : String)
    (hti : w.resolve t = some i) (hh : w.resolve "HEAD" = some h)
    (hne : h ≠ i) (hmerge : w.parentCount t > 1) :
    rewrite_commit_message w t m =
      (.error .unsupportedMergeRewrite, [.queryParents t]) ∧
    ∀ e ∈ (rewrite_commit_message w t m).snd,
      e.isMutation = false := by
  have hbeq : (h == i) = false := by simp [hne]
  have h1 : rewrite_commit_message w t m =
      (.error .unsupportedMergeRewrite, [.queryParents t]) := by
    unfold rewrite_commit_message is_head_commit ensure_commit_exists
      resolve_commit commit_is_merge
    rw [hti, hh]
    simp [hbeq, decide_eq_true hmerge, ensure_commit_exists, hti]
  refine ⟨h1, ?_⟩
  rw [h1]
  intro e he
  simp at he
  subst he
  rfl

/-- Witness for C2 (amended): the non-tip merge commit "m" of `wBase`. -/
theorem C2_witness :
    rewrite_commit_message wBase "m" "x" =
      (.error .unsupportedMergeRewrite, [.queryParents "m"]) ∧
    ∀ e ∈ (rewrite_commit_message wBase "m" "x").snd,
      e.isMutation = false :=
  C2_nontip_merge_rejected wBase "m" "x" "mergehash" "headhash" rfl rfl
    (by decide) (by decide)

/-- C5: for every target that is not the tip, not a merge and not an
ancestor of HEAD, the call returns the not-on-current-branch error and
never invokes the rebase; the only effects are the two read-only
queries. -/
theorem C5_non_ancestor_rejected (w : GitWorld) (t m i h : String)
    (hti : w.resolve t = some i) (hh : w.resolve "HEAD" = some h)
    (hne : h ≠ i) (hpar : w.parentCount t ≤ 1)
    (hanc : w.isAncestorOfHead t = false) :
    rewrite_commit_message w t m =
      (.error .notOnCurrentBranch, [.queryParents t, .queryAncestry t]) ∧
    (∀ c, GitEffect.rebase c ∉ (rewrite_commit_message w t m).snd) ∧
    ∀ e ∈ (rewrite_commit_message w t m).snd,
      e.isMutation = false := by
  have hbeq : (h == i) = false := by simp [hne]
  have hdec : decide (w.parentCount t > 1) = false := by
    simp
    omega
  have h1 : rewrite_commit_message w t m =
      (.error .notOnCurrentBranch, [.queryParents t, .queryAncestry t]) := by
    unfold rewrite_commit_message is_head_commit ensure_commit_exists
      resolve_commit commit_is_merge ensure_ancestor_of_head
    rw [hti, hh]
    simp [hbeq, hdec, hanc, ensure_commit_exists, hti]
  refine ⟨h1, ?_, ?_⟩ <;> rw [h1]
  · intro c
    simp
  · intro e he
    simp at he
    rcases he with he | he <;> subst he <;> rfl

/-- Witness for C5: the diverged commit "d" of `wBase`. -/
theorem C5_witness :
    rewrite_commit_message wBase "d" "x" =
      (.error .notOnCurrentBranch,
        [.queryParents "d", .queryAncestry "d"]) ∧
    (∀ c, GitEffect.rebase c ∉ (rewrite_commit_message wBase "d" "x").snd) ∧
    ∀ e ∈ (rewrite_commit_message wBase "d" "x").snd,
      e.isMutation = false :=
  C5_non_ancestor_rejected wBase "d" "x" "dhash" "headhash" rfl rfl
    (by decide) (by decide) (by decide)

/-- C8: if creating or setting permissions on either helper script
fails, the scripted path returns a resource error before the rebase is
ever invoked, and no repository mutation (no rebase, no amend) appears
in the trace. -/
theorem C8_resource_error_before_rebase (w : GitWorld) (t m : String)
    (h : w.writeOk (seqEditorPath w) = false ∨
         w.chmodOk (seqEditorPath w) = false ∨
         w.writeOk (msgEditorPath w) = false ∨
         w.chmodOk (msgEditorPath w) = false) :
    (∃ p, (reword_non_head_commit w t m).fst =
        .error (.resourceError p)) ∧
    (∀ c, GitEffect.rebase c ∉ (reword_non_head_commit w t m).snd) ∧
    (∀ m', GitEffect.amend m' ∉ (reword_non_head_commit w t m).snd) := by
  cases h1 : w.writeOk (seqEditorPath w) with
  | false =>
    have hv : reword_non_head_commit w t m =
        (.error (.resourceError (seqEditorPath w)), []) := by
      simp [reword_non_head_commit, write_sequence_editor_script, h1]
    exact ⟨⟨seqEditorPath w, by rw [hv]⟩,
      fun c => by rw [hv]; simp, fun m' => by rw [hv]; simp⟩
  | true =>
    cases h2 : w.chmodOk (seqEditorPath w) with
    | false =>
      have hv : reword_non_head_commit w t m =
          (.error (.resourceError (seqEditorPath w)),
            [.writeFile (seqEditorPath w) sequenceEditorScript]) := by
        simp [reword_non_head_commit, write_sequence_editor_script, h1, h2]
      exact ⟨⟨seqEditorPath w, by rw [hv]⟩,
        fun c => by rw [hv]; simp, fun m' => by rw [hv]; simp⟩
    | true =>
      cases h3 : w.writeOk (msgEditorPath w) with
      | false =>
        have hv : reword_non_head_commit w t m =
            (.error (.resourceError (msgEditorPath w)),
              [.writeFile (seqEditorPath w) sequenceEditorScript,
               .chmod (seqEditorPath w)]) := by
          simp [reword_non_head_commit, write_sequence_editor_script,
            write_message_editor_script, h1, h2, h3]
        exact ⟨⟨msgEditorPath w, by rw [hv]⟩,
          fun c => by rw [hv]; simp, fun m' => by rw [hv]; simp⟩
      | true =>
        cases h4 : w.chmodOk (msgEditorPath w) with
        | false =>
          have hv : reword_non_head_commit w t m =
              (.error (.resourceError (msgEditorPath w)),
                [.writeFile (seqEditorPath w) sequenceEditorScript,
                 .chmod (seqEditorPath w),
                 .writeFile (msgEditorPath w) messageEditorScript]) := by
            simp [reword_non_head_commit, write_sequence_editor_script,
              write_message_editor_script, h1, h2, h3, h4]
          exact ⟨⟨msgEditorPath w, by rw [hv]⟩,
            fun c => by rw [hv]; simp, fun m' => by rw [hv]; simp⟩
        | true =>
          rcases h with h | h | h | h <;> simp_all

/-- Witness for C8: in `wWriteFail` the message-editor script cannot be
created. -/
theorem C8_witness :
    (∃ p, (reword_non_head_commit wWriteFail "c2" "x").fst =
        .error (.resourceError p)) ∧
    (∀ c, GitEffect.rebase c ∉
      (reword_non_head_commit wWriteFail "c2" "x").snd) ∧
    (∀ m', GitEffect.amend m' ∉
      (reword_non_head_commit wWriteFail "c2" "x").snd) :=
  C8_resource_error_before_rebase wWriteFail "c2" "x"
    (Or.inr (Or.inr (Or.inl (by decide))))

/-- C4: for any two replacement messages the helper-script writes are
identical (the bodies are the two fixed script constants, independent
of the message), the rebase argument vector and both editor variables
are identical, and the message appears in the subprocess data only as
the value of the CGEN_NEW_MESSAGE environment variable. -/
theorem C4_message_only_via_environment (w : GitWorld) (t m₁ m₂ : String) :
    scriptWritesOf (reword_non_head_commit w t m₁).snd =
      scriptWritesOf (reword_non_head_commit w t m₂).snd ∧
    (rebaseCmdsOf (reword_non_head_commit w t m₁).snd).map RebaseCmd.args =
      (rebaseCmdsOf (reword_non_head_commit w t m₂).snd).map RebaseCmd.args ∧
    (rebaseCmdsOf (reword_non_head_commit w t m₁).snd).map
        RebaseCmd.gitSequenceEditor =
      (rebaseCmdsOf (reword_non_head_commit w t m₂).snd).map
        RebaseCmd.gitSequenceEditor ∧
    (rebaseCmdsOf (reword_non_head_commit w t m₁).snd).map
        RebaseCmd.gitEditor =
      (rebaseCmdsOf (reword_non_head_commit w t m₂).snd).map
        RebaseCmd.gitEditor ∧
    (∀ c ∈ rebaseCmdsOf (reword_non_head_commit w t m₁).snd,
      c.cgenNewMessage = m₁) ∧
    (∀ pb ∈ scriptWritesOf (reword_non_head_commit w t m₁).snd,
      pb.2 = sequenceEditorScript ∨ pb.2 = messageEditorScript) := by
  cases h1 : w.writeOk (seqEditorPath w) <;>
    cases h2 : w.chmodOk (seqEditorPath w) <;>
    cases h3 : w.writeOk (msgEditorPath w) <;>
    cases h4 : w.chmodOk (msgEditorPath w) <;>
    cases h5 : w.rebaseSpawnOk <;>
    cases h6 : w.rebaseExitOk <;>
    simp [reword_non_head_commit, write_sequence_editor_script,
      write_message_editor_script, scriptWritesOf, rebaseCmdsOf,
      h1, h2, h3, h4, h5, h6]

/-- C1 counterexample: with both helper scripts created and made
executable but the rebase process failing to spawn, the call returns
early through `?` and deletes neither script: both helper-script
artifacts outlive the call. -/
theorem C1_counterexample :
    (reword_non_head_commit wSpawnFail "c2" "x").fst =
      .error .rebaseSpawnFailed ∧
    fileExistsAfter (reword_non_head_commit wSpawnFail "c2" "x").snd
      (seqEditorPath wSpawnFail) = true ∧
    fileExistsAfter (reword_non_head_commit wSpawnFail "c2" "x").snd
      (msgEditorPath wSpawnFail) = true ∧
    GitEffect.removeFile (seqEditorPath wSpawnFail) ∉
      (reword_non_head_commit wSpawnFail "c2" "x").snd ∧
    GitEffect.removeFile (msgEditorPath wSpawnFail) ∉
      (reword_non_head_commit wSpawnFail "c2" "x").snd :=
  ⟨rfl, rfl, rfl, by decide, by decide⟩

/-- C1 (amended): deletion of both helper scripts is attempted exactly
when the rebase process returns an exit status — that is, when both
scripts were written and made executable and the process spawned,
whatever its exit.  On every early-error path (failure to write or
chmod either helper script, or failure to spawn the rebase process) the
call returns an error before the cleanup lines: no deletion of any file
is attempted, and every helper script that was already created outlives
the call. -/
theorem C1_cleanup_only_after_rebase_status (w : GitWorld) (t m : String) :
    ((w.writeOk (seqEditorPath w) && w.chmodOk (seqEditorPath w) &&
      w.writeOk (msgEditorPath w) && w.chmodOk (msgEditorPath w) &&
      w.rebaseSpawnOk) = true →
      GitEffect.removeFile (seqEditorPath w) ∈
        (reword_non_head_commit w t m).snd ∧
      GitEffect.removeFile (msgEditorPath w) ∈
        (reword_non_head_commit w t m).snd) ∧
    ((w.writeOk (seqEditorPath w) && w.chmodOk (seqEditorPath w) &&
      w.writeOk (msgEditorPath w) && w.chmodOk (msgEditorPath w) &&
      w.rebaseSpawnOk) = false →
      (∃ e, (reword_non_head_commit w t m).fst = .error e) ∧
      (∀ p, GitEffect.removeFile p ∉ (reword_non_head_commit w t m).snd) ∧
      (∀ p b, GitEffect.writeFile p b ∈ (reword_non_head_commit w t m).snd →
        fileExistsAfter (reword_non_head_commit w t m).snd p = true)) := by
  constructor
  · intro hall
    simp only [Bool.and_eq_true] at hall
    obtain ⟨⟨⟨⟨hw1, hc1⟩, hw2⟩, hc2⟩, hs⟩ := hall
    cases he : w.rebaseExitOk <;>
      simp [reword_non_head_commit, write_sequence_editor_script,
        write_message_editor_script, hw1, hc1, hw2, hc2, hs, he]
  · intro hfail
    cases h1 : w.writeOk (seqEditorPath w) with
    | false =>
      have hv : reword_non_head_commit w t m =
          (.error (.resourceError (seqEditorPath w)), []) := by
        simp [reword_non_head_commit, write_sequence_editor_script, h1]
      rw [hv]
      exact ⟨⟨_, rfl⟩, fun p => by simp, fun p b hpb => by simp at hpb⟩
    | true =>
      cases h2 : w.chmodOk (seqEditorPath w) with
      | false =>
        have hv : reword_non_head_commit w t m =
            (.error (.resourceError (seqEditorPath w)),
              [.writeFile (seqEditorPath w) sequenceEditorScript]) := by
          simp [reword_non_head_commit, write_sequence_editor_script,
            h1, h2]
        rw [hv]
        refine ⟨⟨_, rfl⟩, fun p => by simp, fun p b hpb => ?_⟩
        simp at hpb
        rw [hpb.1]
        simp [fileExistsAfter]
      | true =>
        cases h3 : w.writeOk (msgEditorPath w) with
        | false =>
          have hv : reword_non_head_commit w t m =
              (.error (.resourceError (msgEditorPath w)),
                [.writeFile (seqEditorPath w) sequenceEditorScript,
                 .chmod (seqEditorPath w)]) := by
            simp [reword_non_head_commit, write_sequence_editor_script,
              write_message_editor_script, h1, h2, h3]
          rw [hv]
          refine ⟨⟨_, rfl⟩, fun p => by simp, fun p b hpb => ?_⟩
          simp at hpb
          rw [hpb.1]
          simp [fileExistsAfter]
        | true =>
          cases h4 : w.chmodOk (msgEditorPath w) with
          | false =>
            have hv : reword_non_head_commit w t m =
                (.error (.resourceError (msgEditorPath w)),
                  [.writeFile (seqEditorPath w) sequenceEditorScript,
                   .chmod (seqEditorPath w),
                   .writeFile (msgEditorPath w) messageEditorScript]) := by
              simp [reword_non_head_commit, write_sequence_editor_script,
                write_message_editor_script, h1, h2, h3, h4]
            rw [hv]
            refine ⟨⟨_, rfl⟩, fun p => by simp, fun p b hpb => ?_⟩
            simp at hpb
            rcases hpb with ⟨rfl, -⟩ | ⟨rfl, -⟩ <;> simp [fileExistsAfter]
          | true =>
            cases h5 : w.rebaseSpawnOk with
            | true => rw [h1, h2, h3, h4, h5] at hfail; simp at hfail
            | false =>
              have hv : reword_non_head_commit w t m =
                  (.error .rebaseSpawnFailed,
                    [.writeFile (seqEditorPath w) sequenceEditorScript,
                     .chmod (seqEditorPath w),
                     .writeFile (msgEditorPath w) messageEditorScript,
                     .chmod (msgEditorPath w)]) := by
                simp [reword_non_head_commit, write_sequence_editor_script,
                  write_message_editor_script, h1, h2, h3, h4, h5]
              rw [hv]
              refine ⟨⟨_, rfl⟩, fun p => by simp, fun p b hpb => ?_⟩
              simp at hpb
              rcases hpb with ⟨rfl, -⟩ | ⟨rfl, -⟩ <;> simp [fileExistsAfter]

/-- Witness for C1 (amended): in `wSpawnFail` both scripts are created
but the rebase fails to spawn — an early-error path with no deletion,
on which every written script still exists after the call. -/
theorem C1_witness :
    (∃ e, (reword_non_head_commit wSpawnFail "c2" "x").fst =
      Except.error e) ∧
    (∀ p, GitEffect.removeFile p ∉
      (reword_non_head_commit wSpawnFail "c2" "x").snd) ∧
    (∀ p b, GitEffect.writeFile p b ∈
        (reword_non_head_commit wSpawnFail "c2" "x").snd →
      fileExistsAfter (reword_non_head_commit wSpawnFail "c2" "x").snd
        p = true) :=
  (C1_cleanup_only_after_rebase_status wSpawnFail "c2" "x").2 (by decide)

end AutoCommit
